import Mathlib

/-!
Verification of the query-string encoding/decoding core of the
`js-query-pagination` library.

The development shallowly embeds the relevant JavaScript/TypeScript source
(`src/utils.ts`, `src/index.ts` — `fromQueryString` —, and the
`PaginateBuilder.filter` entry point of `src/builder.ts`) into Lean.

JavaScript runtime values are modelled by the inductive `JSVal`.  JS numbers
are modelled as `Option Int` with `none` playing the role of `NaN`; the code
under verification only ever produces integers or `NaN` on the paths the
theorems below exercise (array indices, `parseInt` results, counters), so
non-integral doubles are left outside the value domain.  JS objects are
modelled as insertion-ordered association lists of own enumerable
properties; the prototype chain is not modelled, so all statements about
the decoder are made for plain data keys (keys that do not collide with
`Object.prototype` member names such as `toString`).  Arrays carry their
element list plus the extra non-index properties JS lets one attach to an
array object.
-/

/-- The `arrayFormat` configuration enum of `BuilderOptions` (types.ts). -/
inductive ArrayFormat where
  | brackets
  | indices
  | comma
  | separator
  | repeatFmt
deriving DecidableEq, Repr

/-- `BuilderOptions` (types.ts), with every field present (the public entry
points merge user options over `DEFAULT_OPTIONS`, so downstream code always
sees a fully populated record). -/
structure BuilderOptions where
  encodeValues : Bool
  arrayFormat : ArrayFormat
  arraySeparator : String
  skipNulls : Bool
  skipEmptyString : Bool
deriving DecidableEq, Repr

/-- `DEFAULT_OPTIONS` (utils.ts). -/
def defaultOptions : BuilderOptions :=
  { encodeValues := true
    arrayFormat := ArrayFormat.repeatFmt
    arraySeparator := ","
    skipNulls := true
    skipEmptyString := true }

mutual
/-- JavaScript runtime values, as used by the library: `null`, `undefined`,
booleans, numbers (`none` = `NaN`), strings, arrays (element list plus extra
named properties) and plain objects (insertion-ordered own properties). -/
inductive JSVal where
  | null
  | undef
  | bool (b : Bool)
  | num (n : Option Int)
  | str (s : String)
  | arr (elems : JSList) (props : JSProps)
  | obj (entries : JSProps)

/-- A list of JS values (elements of a JS array). -/
inductive JSList where
  | nil
  | cons (head : JSVal) (tail : JSList)

/-- Insertion-ordered own properties of a JS object. -/
inductive JSProps where
  | nil
  | cons (key : String) (val : JSVal) (tail : JSProps)
end

mutual
def JSVal.beq : JSVal → JSVal → Bool
  | .null, .null => true
  | .undef, .undef => true
  | .bool a, .bool b => a == b
  | .num a, .num b => a == b
  | .str a, .str b => a == b
  | .arr e1 p1, .arr e2 p2 => JSList.beq e1 e2 && JSProps.beq p1 p2
  | .obj p1, .obj p2 => JSProps.beq p1 p2
  | _, _ => false

def JSList.beq : JSList → JSList → Bool
  | .nil, .nil => true
  | .cons a as, .cons b bs => JSVal.beq a b && JSList.beq as bs
  | _, _ => false

def JSProps.beq : JSProps → JSProps → Bool
  | .nil, .nil => true
  | .cons k1 v1 t1, .cons k2 v2 t2 => k1 == k2 && JSVal.beq v1 v2 && JSProps.beq t1 t2
  | _, _ => false
end

mutual
theorem JSVal.beqVal_iff : ∀ a b : JSVal, JSVal.beq a b = true ↔ a = b
  | .null, b => by cases b <;> simp [JSVal.beq]
  | .undef, b => by cases b <;> simp [JSVal.beq]
  | .bool _, b => by cases b <;> simp [JSVal.beq]
  | .num _, b => by cases b <;> simp [JSVal.beq]
  | .str _, b => by cases b <;> simp [JSVal.beq]
  | .arr e1 p1, b => by
    cases b <;> first
      | (rename_i e2 p2; simp [JSVal.beq, JSList.beqList_iff e1 e2, JSProps.beqProps_iff p1 p2])
      | simp [JSVal.beq]
  | .obj p1, b => by
    cases b <;> first
      | (rename_i p2; simp [JSVal.beq, JSProps.beqProps_iff p1 p2])
      | simp [JSVal.beq]

theorem JSList.beqList_iff : ∀ a b : JSList, JSList.beq a b = true ↔ a = b
  | .nil, .nil => by simp [JSList.beq]
  | .nil, .cons _ _ => by simp [JSList.beq]
  | .cons _ _, .nil => by simp [JSList.beq]
  | .cons a as, .cons b bs => by
    simp [JSList.beq, JSVal.beqVal_iff a b, JSList.beqList_iff as bs]

theorem JSProps.beqProps_iff : ∀ a b : JSProps, JSProps.beq a b = true ↔ a = b
  | .nil, .nil => by simp [JSProps.beq]
  | .nil, .cons _ _ _ => by simp [JSProps.beq]
  | .cons _ _ _, .nil => by simp [JSProps.beq]
  | .cons k1 v1 t1, .cons k2 v2 t2 => by
    simp [JSProps.beq, JSVal.beqVal_iff v1 v2, JSProps.beqProps_iff t1 t2, and_assoc]
end

instance : DecidableEq JSVal := fun a b =>
  decidable_of_iff (JSVal.beq a b = true) (JSVal.beqVal_iff a b)

instance : DecidableEq JSList := fun a b =>
  decidable_of_iff (JSList.beq a b = true) (JSList.beqList_iff a b)

instance : DecidableEq JSProps := fun a b =>
  decidable_of_iff (JSProps.beq a b = true) (JSProps.beqProps_iff a b)

/-- Convert a Lean list of values into a JS array element list. -/
def JSList.ofList : List JSVal → JSList
  | [] => .nil
  | v :: vs => .cons v (JSList.ofList vs)

/-- The Lean list of elements of a JS array element list. -/
def JSList.toList : JSList → List JSVal
  | .nil => []
  | .cons v vs => v :: JSList.toList vs

/-- Number of elements (`.length` of a JS array). -/
def JSList.length : JSList → Nat
  | .nil => 0
  | .cons _ vs => JSList.length vs + 1

/-- Append one element at the end (`Array.prototype.push`). -/
def JSList.push : JSList → JSVal → JSList
  | .nil, v => .cons v .nil
  | .cons a as, v => .cons a (JSList.push as v)

/-- Convert property list to a Lean association list. -/
def JSProps.toList : JSProps → List (String × JSVal)
  | .nil => []
  | .cons k v t => (k, v) :: JSProps.toList t

/-- Build a property list from a Lean association list. -/
def JSProps.ofList : List (String × JSVal) → JSProps
  | [] => .nil
  | (k, v) :: t => .cons k v (JSProps.ofList t)

/-- Own-property lookup (`o[k]`); `none` means the property is absent
(which JS reads as `undefined`). -/
def JSProps.get : JSProps → String → Option JSVal
  | .nil, _ => none
  | .cons k v t, key => if k = key then some v else JSProps.get t key

/-- Property assignment `o[k] = v`: updates an existing key in place
(keeping its position) or appends a new key, exactly as JS property
insertion order works. -/
def JSProps.set : JSProps → String → JSVal → JSProps
  | .nil, key, v => .cons key v .nil
  | .cons k w t, key, v =>
    if k = key then .cons k v t else .cons k w (JSProps.set t key v)

/-- Lookup that identifies a stored `undefined` with an absent property,
mirroring the `params.page !== undefined` checks of the source. -/
def JSProps.getDefined (props : JSProps) (key : String) : Option JSVal :=
  match JSProps.get props key with
  | some JSVal.undef => none
  | o => o

/-- JS truthiness of a value (`!v` is its negation). -/
def jsTruthy : JSVal → Bool
  | .null => false
  | .undef => false
  | .bool b => b
  | .num (some i) => i != 0
  | .num none => false
  | .str s => s ≠ ""
  | .arr _ _ => true
  | .obj _ => true

mutual
/-- `String(v)` — JS string conversion as exercised by the encoder:
`String(null) = "null"`, `String(undefined) = "undefined"`, numbers and
booleans print themselves, arrays join their elements with `","`
(`Array.prototype.toString`), plain objects print `"[object Object]"`. -/
def jsString : JSVal → String
  | .null => "null"
  | .undef => "undefined"
  | .bool true => "true"
  | .bool false => "false"
  | .num (some i) => toString i
  | .num none => "NaN"
  | .str s => s
  | .arr elems _ => jsArrayJoin elems
  | .obj _ => "[object Object]"

/-- `Array.prototype.join(",")`: elements are stringified with `String`,
except `null` and `undefined` which contribute the empty string. -/
def jsArrayJoin : JSList → String
  | .nil => ""
  | .cons v rest =>
    (match v with
     | .null => ""
     | .undef => ""
     | w => jsString w) ++
    (match rest with
     | .nil => ""
     | r => "," ++ jsArrayJoin r)
end

/-- Leading-whitespace test used by JS string trimming. -/
def jsWhitespace (c : Char) : Bool :=
  c = ' ' || c = '\t' || c = '\n' || c = '\r' || c = '\x0b' || c = '\x0c'

/-- Digits of a decimal literal to a natural number. -/
def digitsToNat (cs : List Char) : Nat :=
  cs.foldl (fun acc c => acc * 10 + (c.toNat - '0'.toNat)) 0

/-- `Number(string)` restricted to the integer fragment: surrounding
whitespace is trimmed, the empty string converts to `0`, an optional sign
followed by decimal digits converts to the signed integer, and anything
else yields `NaN` (`none`).  (Fractional, exponent, hex and `Infinity`
forms of the real JS grammar are outside this development's number domain
and also map to `none`.) -/
def jsStringToNumber (s : String) : Option Int :=
  let cs := (s.data.dropWhile jsWhitespace).reverse.dropWhile jsWhitespace |>.reverse
  match cs with
  | [] => some 0
  | '-' :: t => if t ≠ [] ∧ t.all Char.isDigit then some (-(digitsToNat t : Int)) else none
  | '+' :: t => if t ≠ [] ∧ t.all Char.isDigit then some ((digitsToNat t : Int)) else none
  | t => if t.all Char.isDigit then some ((digitsToNat t : Int)) else none

/-- `Number(v)` — JS number coercion (integer fragment, `none` = `NaN`):
`null` is `0`, `undefined` is `NaN`, booleans are `1`/`0`, strings go
through the string-number grammar, arrays coerce through their joined
string form and plain objects through `"[object Object]"` (hence `NaN`). -/
def jsToNumber : JSVal → Option Int
  | .null => some 0
  | .undef => none
  | .bool b => some (if b then 1 else 0)
  | .num n => n
  | .str s => jsStringToNumber s
  | .arr elems props => jsStringToNumber (jsString (.arr elems props))
  | .obj _ => none

/-- `parseInt(s, 10)`: leading whitespace is skipped, an optional sign is
consumed, and the longest leading run of decimal digits gives the value;
`none` (= `NaN`) if that run is empty.  Trailing garbage is ignored. -/
def parseIntJS (s : String) : Option Int :=
  let cs := s.data.dropWhile jsWhitespace
  match cs with
  | '-' :: t =>
    let d := t.takeWhile Char.isDigit
    if d = [] then none else some (-(digitsToNat d : Int))
  | '+' :: t =>
    let d := t.takeWhile Char.isDigit
    if d = [] then none else some ((digitsToNat d : Int))
  | t =>
    let d := t.takeWhile Char.isDigit
    if d = [] then none else some ((digitsToNat d : Int))

/-- Uppercase hexadecimal digit for a value below 16. -/
def hexDigit (n : Nat) : Char :=
  if n < 10 then Char.ofNat ('0'.toNat + n)
  else Char.ofNat ('A'.toNat + (n - 10))

/-- UTF-8 bytes of one Unicode scalar value. -/
def utf8Bytes (c : Char) : List Nat :=
  let v := c.toNat
  if v < 0x80 then [v]
  else if v < 0x800 then [0xC0 + v / 64, 0x80 + v % 64]
  else if v < 0x10000 then [0xE0 + v / 4096, 0x80 + (v / 64) % 64, 0x80 + v % 64]
  else [0xF0 + v / 262144, 0x80 + (v / 4096) % 64, 0x80 + (v / 64) % 64, 0x80 + v % 64]

/-- Characters `encodeURIComponent` leaves unescaped:
`A-Z a-z 0-9 - _ . ! ~ * ' ( )`. -/
def uriUnreserved (c : Char) : Bool :=
  c.isAlpha || c.isDigit ||
  c = '-' || c = '_' || c = '.' || c = '!' || c = '~' || c = '*' ||
  c = '\'' || c = '(' || c = ')'

/-- Percent-escape of one byte, `"%XX"` with uppercase hex. -/
def percentByte (b : Nat) : String :=
  String.mk ['%', hexDigit (b / 16), hexDigit (b % 16)]

/-- `encodeURIComponent(s)`: unreserved characters pass through, every
other character is replaced by the percent-escapes of its UTF-8 bytes. -/
def encodeURIComponent (s : String) : String :=
  String.join (s.data.map fun c =>
    if uriUnreserved c then String.mk [c]
    else String.join ((utf8Bytes c).map percentByte))

/-- `encodeValue(value, encode)` (utils.ts): stringify, then
percent-encode when requested. -/
def encodeValue (value : JSVal) (encode : Bool) : String :=
  let stringValue := jsString value
  if encode then encodeURIComponent stringValue else stringValue

/-- `shouldSkipValue(value, options)` (utils.ts). -/
def shouldSkipValue (value : JSVal) (options : BuilderOptions) : Bool :=
  if options.skipNulls && (value = JSVal.null || value = JSVal.undef) then true
  else if options.skipEmptyString && value = JSVal.str "" then true
  else false

/-- Join a list of strings with a separator (`Array.prototype.join` on an
array of strings). -/
def joinSep (sep : String) : List String → String
  | [] => ""
  | [s] => s
  | s :: rest => s ++ sep ++ joinSep sep rest

/-- `formatArrayValue(key, values, options)` (utils.ts): turn one key and
its array of values into encoded `key=value` tokens according to the
configured array format. -/
def formatArrayValue (key : String) (values : List JSVal) (options : BuilderOptions) : List String :=
  match options.arrayFormat with
  | .brackets =>
    values.map fun value =>
      encodeValue (JSVal.str key) options.encodeValues ++ "[]=" ++ encodeValue value options.encodeValues
  | .indices =>
    values.enum.map fun (index, value) =>
      encodeValue (JSVal.str key) options.encodeValues ++ "[" ++ toString index ++ "]=" ++
        encodeValue value options.encodeValues
  | .comma =>
    let separator := ","
    let joinedValues := joinSep separator (values.map fun v => encodeValue v options.encodeValues)
    [encodeValue (JSVal.str key) options.encodeValues ++ "=" ++ joinedValues]
  | .separator =>
    let separator := options.arraySeparator
    let joinedValues := joinSep separator (values.map fun v => encodeValue v options.encodeValues)
    [encodeValue (JSVal.str key) options.encodeValues ++ "=" ++ joinedValues]
  | .repeatFmt =>
    values.map fun value =>
      encodeValue (JSVal.str key) options.encodeValues ++ "=" ++ encodeValue value options.encodeValues

/-- `camelToSnakeCase(str)` (utils.ts): the single fixed rename
`searchFields` → `search_fields`; every other string passes through. -/
def camelToSnakeCase (s : String) : String :=
  if s = "searchFields" then "search_fields" else s

/-- Canonical array-index strings (`"0"`, `"1"`, `"10"`, ... with no
leading zero), the keys JS treats as integer indices for property ordering
and array element access. -/
def isIndexString (s : String) : Bool :=
  match s.data with
  | [] => false
  | ['0'] => true
  | c :: _ => c ≠ '0' && s.data.all Char.isDigit

/-- Insert into a list of entries sorted by ascending numeric key. -/
def insertByIndex (e : String × JSVal) : List (String × JSVal) → List (String × JSVal)
  | [] => [e]
  | f :: rest =>
    if digitsToNat e.1.data < digitsToNat f.1.data then e :: f :: rest
    else f :: insertByIndex e rest

/-- Sort entries by ascending numeric key (insertion sort, stable). -/
def sortByIndex : List (String × JSVal) → List (String × JSVal)
  | [] => []
  | e :: rest => insertByIndex e (sortByIndex rest)

/-- `Object.entries(o)` enumeration order: integer-like keys first in
ascending numeric order, then the remaining keys in insertion order. -/
def jsEntries (props : JSProps) : List (String × JSVal) :=
  let l := props.toList
  sortByIndex (l.filter fun e => isIndexString e.1) ++
    (l.filter fun e => !isIndexString e.1)

/-- Tokens contributed by one top-level `(key, value)` entry of the loop
body of `objectToQueryParams` (utils.ts): skip check, key normalization,
then the array / nested-object / scalar cases. -/
def entryTokens (options : BuilderOptions) (entry : String × JSVal) : List String :=
  let (key, value) := entry
  if shouldSkipValue value options then []
  else
    let queryKey := camelToSnakeCase key
    match value with
    | .arr elems _ =>
      if elems.length > 0 then formatArrayValue queryKey elems.toList options else []
    | .obj nested =>
      (jsEntries nested).flatMap fun (nestedKey, nestedValue) =>
        if !shouldSkipValue nestedValue options then
          let flatKey := queryKey ++ "[" ++ nestedKey ++ "]"
          match nestedValue with
          | .arr nelems _ => formatArrayValue flatKey nelems.toList options
          | nv =>
            [encodeValue (JSVal.str flatKey) options.encodeValues ++ "=" ++
              encodeValue nv options.encodeValues]
        else []
    | v =>
      [encodeValue (JSVal.str queryKey) options.encodeValues ++ "=" ++
        encodeValue v options.encodeValues]

/-- `objectToQueryParams(obj, options)` (utils.ts): concatenate the tokens
of every entry, in `Object.entries` enumeration order. -/
def objectToQueryParams (obj : JSProps) (options : BuilderOptions) : List String :=
  (jsEntries obj).flatMap (entryTokens options)

/-- `buildQueryString(params, options)` (utils.ts): join the tokens with
`&`; the empty token list gives the empty string. -/
def buildQueryString (params : JSProps) (options : BuilderOptions) : String :=
  let queryParams := objectToQueryParams params options
  if queryParams.length > 0 then joinSep "&" queryParams else ""

/-- The `limit` half of `validatePaginationParams` (utils.ts): if `limit`
is present (`!== undefined`), `Number(limit)` must be an integer `≥ 1`,
else the error `"Limit must be a positive integer"` is thrown. -/
def validateLimitCheck (params : JSProps) : Except String Unit :=
  match params.getDefined "limit" with
  | some v =>
    match jsToNumber v with
    | some limit =>
      if limit < 1 then .error "Limit must be a positive integer" else .ok ()
    | none => .error "Limit must be a positive integer"
  | none => .ok ()

/-- `validatePaginationParams(params)` (utils.ts): if `page` is present
(`!== undefined`), `Number(page)` must be an integer `≥ 1`, else the error
`"Page must be a positive integer"` is thrown (ending the call); then the
same check runs for `limit`. -/
def validatePaginationParams (params : JSProps) : Except String Unit :=
  match params.getDefined "page" with
  | some v =>
    (match jsToNumber v with
     | some page =>
       if page < 1 then .error "Page must be a positive integer"
       else validateLimitCheck params
     | none => .error "Page must be a positive integer")
  | none => validateLimitCheck params

/-- `toQueryString(params, options)` (index.ts): validate, then build. -/
def toQueryString (params : JSProps) (options : BuilderOptions) : Except String String :=
  match validatePaginationParams params with
  | .ok _ => .ok (buildQueryString params options)
  | .error e => .error e

/-- Hexadecimal digit test (both cases), as in percent-escape parsing. -/
def isHexDigit (c : Char) : Bool :=
  c.isDigit || ('A' ≤ c && c ≤ 'F') || ('a' ≤ c && c ≤ 'f')

/-- Value of a hexadecimal digit. -/
def hexVal (c : Char) : Nat :=
  if c.isDigit then c.toNat - '0'.toNat
  else if 'a' ≤ c then c.toNat - 'a'.toNat + 10
  else c.toNat - 'A'.toNat + 10

/-- Percent-decoding, byte phase: each `%XX` with two hex digits becomes
the byte `XX`; any other character contributes its UTF-8 bytes unchanged
(a `%` not followed by two hex digits passes through). -/
def pctBytes : List Char → List Nat
  | [] => []
  | '%' :: h1 :: h2 :: rest =>
    if isHexDigit h1 && isHexDigit h2 then
      (hexVal h1 * 16 + hexVal h2) :: pctBytes rest
    else utf8Bytes '%' ++ pctBytes (h1 :: h2 :: rest)
  | '%' :: rest => utf8Bytes '%' ++ pctBytes rest
  | c :: rest => utf8Bytes c ++ pctBytes rest

/-- The Unicode replacement character. -/
def replChar : Char := Char.ofNat 0xFFFD

/-- UTF-8 decoding of a byte list with U+FFFD replacement for malformed
sequences (resynchronising after the leading byte of a bad sequence; the
exact WHATWG maximal-subpart resynchronisation is not needed on any input
the theorems touch, which are all well-formed).  The fuel argument only
drives termination; every step consumes at least one byte, so
`utf8Decode` below always supplies enough. -/
def utf8DecodeAux : Nat → List Nat → List Char
  | 0, _ => []
  | _ + 1, [] => []
  | fuel + 1, b :: rest =>
    if b < 0x80 then Char.ofNat b :: utf8DecodeAux fuel rest
    else if 0xC2 ≤ b && b ≤ 0xDF then
      match rest with
      | b2 :: r2 =>
        if 0x80 ≤ b2 && b2 ≤ 0xBF then
          Char.ofNat ((b - 0xC0) * 64 + (b2 - 0x80)) :: utf8DecodeAux fuel r2
        else replChar :: utf8DecodeAux fuel rest
      | [] => [replChar]
    else if 0xE0 ≤ b && b ≤ 0xEF then
      let lo2 := if b = 0xE0 then 0xA0 else 0x80
      let hi2 := if b = 0xED then 0x9F else 0xBF
      match rest with
      | b2 :: b3 :: r3 =>
        if lo2 ≤ b2 && b2 ≤ hi2 && 0x80 ≤ b3 && b3 ≤ 0xBF then
          Char.ofNat ((b - 0xE0) * 4096 + (b2 - 0x80) * 64 + (b3 - 0x80)) :: utf8DecodeAux fuel r3
        else replChar :: utf8DecodeAux fuel rest
      | _ => replChar :: utf8DecodeAux fuel rest
    else if 0xF0 ≤ b && b ≤ 0xF4 then
      let lo2 := if b = 0xF0 then 0x90 else 0x80
      let hi2 := if b = 0xF4 then 0x8F else 0xBF
      match rest with
      | b2 :: b3 :: b4 :: r4 =>
        if lo2 ≤ b2 && b2 ≤ hi2 && 0x80 ≤ b3 && b3 ≤ 0xBF && 0x80 ≤ b4 && b4 ≤ 0xBF then
          Char.ofNat ((b - 0xF0) * 262144 + (b2 - 0x80) * 4096 + (b3 - 0x80) * 64 + (b4 - 0x80)) ::
            utf8DecodeAux fuel r4
        else replChar :: utf8DecodeAux fuel rest
      | _ => replChar :: utf8DecodeAux fuel rest
    else replChar :: utf8DecodeAux fuel rest

/-- UTF-8 decoding with replacement characters. -/
def utf8Decode (bytes : List Nat) : List Char :=
  utf8DecodeAux bytes.length bytes

/-- Decode one form-urlencoded component: `+` means space, then
percent-decode. -/
def formDecodePart (cs : List Char) : String :=
  String.mk (utf8Decode (pctBytes (cs.map fun c => if c = '+' then ' ' else c)))

/-- Split a character list on a separator character. -/
def splitOnChar (c : Char) : List Char → List (List Char)
  | [] => [[]]
  | a :: rest =>
    if a = c then [] :: splitOnChar c rest
    else
      match splitOnChar c rest with
      | [] => [[a]]
      | g :: gs => (a :: g) :: gs

/-- `new URLSearchParams(queryString).entries()`: drop one leading `?`,
split on `&`, skip empty segments, split each segment at its first `=`
(missing `=` means empty value), and form-decode both sides. -/
def urlsearchParse (s : String) : List (String × String) :=
  let cs := match s.data with
    | '?' :: t => t
    | t => t
  (splitOnChar '&' cs).filterMap fun seg =>
    match seg with
    | [] => none
    | _ =>
      let name := seg.takeWhile (· ≠ '=')
      let value := match seg.dropWhile (· ≠ '=') with
        | '=' :: t => t
        | _ => []
      some (formDecodePart name, formDecodePart value)

/-- The regex `^([^\[]+)\[(\d+)\]$` of `fromQueryString` (index.ts):
a nonempty bracket-free base followed by a nonempty all-digit index in
brackets ending the key.  Returns `(base, idx)`. -/
def matchIndexed (key : String) : Option (String × String) :=
  let cs := key.data
  let base := cs.takeWhile (· ≠ '[')
  match cs.dropWhile (· ≠ '[') with
  | '[' :: t =>
    let d := t.takeWhile (· ≠ ']')
    if base ≠ [] ∧ d ≠ [] ∧ d.all Char.isDigit ∧ t.dropWhile (· ≠ ']') = [']'] then
      some (String.mk base, String.mk d)
    else none
  | _ => none

/-- The regex `^([^\[]+)\[([^\]]+)\]\[\]$` of `fromQueryString`:
a nonempty bracket-free base, a nonempty `]`-free field, then literal
`[]` ending the key.  Returns `(base, field)`. -/
def matchNestedArr (key : String) : Option (String × String) :=
  let cs := key.data
  let base := cs.takeWhile (· ≠ '[')
  match cs.dropWhile (· ≠ '[') with
  | '[' :: t =>
    let f := t.takeWhile (· ≠ ']')
    if base ≠ [] ∧ f ≠ [] ∧ t.dropWhile (· ≠ ']') = [']', '[', ']'] then
      some (String.mk base, String.mk f)
    else none
  | _ => none

/-- The regex `^([^\[]+)\[([^\]]+)\]$` of `fromQueryString`: a nonempty
bracket-free base and a nonempty `]`-free field in brackets ending the
key.  Returns `(base, field)`. -/
def matchNestedObj (key : String) : Option (String × String) :=
  let cs := key.data
  let base := cs.takeWhile (· ≠ '[')
  match cs.dropWhile (· ≠ '[') with
  | '[' :: t =>
    let f := t.takeWhile (· ≠ ']')
    if base ≠ [] ∧ f ≠ [] ∧ t.dropWhile (· ≠ ']') = [']'] then
      some (String.mk base, String.mk f)
    else none
  | _ => none

/-- `key.includes('[') && key.includes(']')`. -/
def hasBothBrackets (key : String) : Bool :=
  key.data.contains '[' && key.data.contains ']'

/-- `key.endsWith('[]')`. -/
def endsWithBrackets (key : String) : Bool :=
  match key.data.reverse with
  | ']' :: '[' :: _ => true
  | _ => false

/-- `key.slice(0, -2)`. -/
def dropLast2 (key : String) : String :=
  String.mk (key.data.take (key.data.length - 2))

/-- Truthiness of a property-read result (`undefined` for an absent
property is falsy). -/
def jsTruthyOpt : Option JSVal → Bool
  | some v => jsTruthy v
  | none => false

/-- Replace `l.length` by `n`, truncating or padding with `undefined`
(JS array `length` assignment). -/
def resizeList : JSList → Nat → JSList
  | _, 0 => .nil
  | .nil, n + 1 => .cons .undef (resizeList .nil n)
  | .cons a as, n + 1 => .cons a (resizeList as n)

/-- Set element `i` of a JS array's element list, growing the list with
`undefined` holes if `i` is past the end. -/
def setElem : JSList → Nat → JSVal → JSList
  | .nil, 0, v => .cons v .nil
  | .cons _ as, 0, v => .cons v as
  | .nil, n + 1, v => .cons .undef (setElem .nil n v)
  | .cons a as, n + 1, v => .cons a (setElem as n v)

/-- Property read `v[k]` for the value shapes the decoder can meet after
its truthiness guards: own properties of plain objects, `length` / index /
extra properties of arrays, `length` / index of strings; reads on numbers
and booleans give `undefined`.  (Inherited `Object.prototype` members are
not modelled: all theorems quantify over plain data keys only.) -/
def jsGetProp : JSVal → String → Option JSVal
  | .obj ps, k => ps.get k
  | .arr elems props, k =>
    if k = "length" then some (.num (some elems.length))
    else if isIndexString k then elems.toList.get? (digitsToNat k.data)
    else props.get k
  | .str s, k =>
    if k = "length" then some (.num (some s.length))
    else if isIndexString k then (s.data.get? (digitsToNat k.data)).map fun c => .str (String.mk [c])
    else none
  | _, _ => none

/-- Property write `v[k] = w` (strict mode): allowed on objects and arrays
(`length`, element index or extra property), a `TypeError` on primitives;
array `length` assignment follows the JS rule (non-negative integer
coercion or `RangeError`). -/
def jsSetProp : JSVal → String → JSVal → Except String JSVal
  | .obj ps, k, v => .ok (.obj (ps.set k v))
  | .arr elems props, k, v =>
    if k = "length" then
      match jsToNumber v with
      | some n =>
        if n < 0 then .error "RangeError: Invalid array length"
        else .ok (.arr (resizeList elems n.toNat) props)
      | none => .error "RangeError: Invalid array length"
    else if isIndexString k then .ok (.arr (setElem elems (digitsToNat k.data) v) props)
    else .ok (.arr elems (props.set k v))
  | _, _, _ => .error "TypeError: Cannot create property on a primitive value"

/-- Property read with a stored `undefined` collapsed to `none`, matching
the `existingValue !== undefined` test of the source. -/
def jsGetPropDefined (v : JSVal) (k : String) : Option JSVal :=
  match jsGetProp v k with
  | some .undef => none
  | o => o

/-- The recurring decoder idiom
`if (!params[k]) { params[k] = []; } params[k].push(value)`:
a falsy current value is replaced by a fresh array before the push; a
truthy non-array makes `.push` a `TypeError`. -/
def arrayAppendEntry (params : JSProps) (base : String) (value : String) :
    Except String JSProps :=
  match params.get base with
  | some v =>
    if jsTruthy v then
      match v with
      | .arr elems props => .ok (params.set base (.arr (elems.push (.str value)) props))
      | _ => .error "TypeError: params[baseKey].push is not a function"
    else .ok (params.set base (.arr (.cons (.str value) .nil) .nil))
  | none => .ok (params.set base (.arr (.cons (.str value) .nil) .nil))

/-- One iteration of the `for (const [key, value] of urlParams.entries())`
loop of `fromQueryString` (index.ts), transforming the accumulated
`params` object. -/
def processPair (params : JSProps) (kv : String × String) : Except String JSProps :=
  let (key, value) := kv
  if hasBothBrackets key then
    match matchIndexed key with
    | some (baseKey, _idx) => arrayAppendEntry params baseKey value
    | none =>
      match matchNestedArr key with
      | some (baseKey, nestedKey) => do
        let baseVal0 := match params.get baseKey with
          | some v => if jsTruthy v then v else .obj .nil
          | none => .obj .nil
        let baseVal1 ←
          if !jsTruthyOpt (jsGetProp baseVal0 nestedKey) then
            jsSetProp baseVal0 nestedKey (.arr .nil .nil)
          else pure baseVal0
        match jsGetProp baseVal1 nestedKey with
        | some (.arr elems props) => do
          let baseVal2 ← jsSetProp baseVal1 nestedKey (.arr (elems.push (.str value)) props)
          pure (params.set baseKey baseVal2)
        | _ => throw "TypeError: params[baseKey][nestedKey].push is not a function"
      | none =>
        match matchNestedObj key with
        | some (baseKey, nestedKey) => do
          let baseVal0 := match params.get baseKey with
            | some v => if jsTruthy v then v else .obj .nil
            | none => .obj .nil
          match jsGetPropDefined baseVal0 nestedKey with
          | some (JSVal.arr elems props) => do
            let baseVal2 ← jsSetProp baseVal0 nestedKey (.arr (elems.push (.str value)) props)
            pure (params.set baseKey baseVal2)
          | some existing => do
            let baseVal2 ←
              jsSetProp baseVal0 nestedKey (.arr (.cons existing (.cons (.str value) .nil)) .nil)
            pure (params.set baseKey baseVal2)
          | none => do
            let baseVal2 ← jsSetProp baseVal0 nestedKey (.str value)
            pure (params.set baseKey baseVal2)
        | none =>
          if endsWithBrackets key then arrayAppendEntry params (dropLast2 key) value
          else pure params
  else
    if key = "page" || key = "limit" then pure (params.set key (.num (parseIntJS value)))
    else if key = "vacuum" then pure (params.set key (.bool (value = "true")))
    else if key = "sort" || key = "searchFields" then arrayAppendEntry params key value
    else pure (params.set key (.str value))

/-- Run the decoder loop over a list of decoded `(key, value)` pairs. -/
def processAll (params : JSProps) : List (String × String) → Except String JSProps
  | [] => .ok params
  | p :: rest =>
    match processPair params p with
    | .ok params1 => processAll params1 rest
    | .error e => .error e

/-- The decoder after form-urlencoded splitting: fold the loop body over
the pairs starting from an empty object, then validate. -/
def fromPairs (pairs : List (String × String)) : Except String JSProps :=
  match processAll .nil pairs with
  | .ok params =>
    (match validatePaginationParams params with
     | .ok _ => .ok params
     | .error e => .error e)
  | .error e => .error e

/-- `fromQueryString(queryString)` (index.ts). -/
def fromQueryString (queryString : String) : Except String JSProps :=
  fromPairs (urlsearchParse queryString)

/-- Spread `[...v]` of an iterable value: arrays spread to their elements,
strings to their characters, anything else is a `TypeError`. -/
def jsSpreadList : JSVal → Except String (List JSVal)
  | .arr elems _ => .ok elems.toList
  | .str s => .ok (s.data.map fun c => .str (String.mk [c]))
  | _ => .error "TypeError: value is not iterable"

/-- The single-value operator helpers of `PaginateBuilder` (builder.ts):
`if (!this.params.OP) this.params.OP = {}; this.params.OP[field] = value`
(used by `like`, `equals`, `greaterThanOrEqual`, `greaterThan`,
`lessThanOrEqual`, `lessThan`). -/
def setOperatorField (params : JSProps) (opKey field : String) (value : JSVal) :
    Except String JSProps :=
  let base0 := match params.get opKey with
    | some v => if jsTruthy v then v else .obj .nil
    | none => .obj .nil
  match jsSetProp base0 field value with
  | .ok base1 => .ok (params.set opKey base1)
  | .error e => .error e

/-- The multi-value operator helpers of `PaginateBuilder` (builder.ts):
`if (!this.params.OP) this.params.OP = {};
 this.params.OP[field] = [...(this.params.OP[field] || []), ...values]`
(used by `whereIn` and `whereNotIn`). -/
def appendOperatorField (params : JSProps) (opKey field : String) (values : List JSVal) :
    Except String JSProps :=
  let base0 := match params.get opKey with
    | some v => if jsTruthy v then v else .obj .nil
    | none => .obj .nil
  match (match jsGetProp base0 field with
         | some v => if jsTruthy v then jsSpreadList v else .ok []
         | none => .ok []) with
  | .ok oldVals =>
    (match jsSetProp base0 field (.arr (JSList.ofList (oldVals ++ values)) .nil) with
     | .ok base1 => .ok (params.set opKey base1)
     | .error e => .error e)
  | .error e => .error e

/-- The flat-list helpers of `PaginateBuilder` (builder.ts):
`this.params.KEY = [...(this.params.KEY || []), ...fields]` with one field
(used by `isNull` and `isNotNull`). -/
def appendTopList (params : JSProps) (key field : String) : Except String JSProps :=
  match (match params.get key with
         | some v => if jsTruthy v then jsSpreadList v else .ok []
         | none => .ok []) with
  | .ok oldVals => .ok (params.set key (.arr (JSList.ofList (oldVals ++ [.str field])) .nil))
  | .error e => .error e

/-- `Array.isArray(value) ? value : [value]` — the argument spreading of
the `in`/`notin` arms of `PaginateBuilder.filter`. -/
def argToList : JSVal → List JSVal
  | .arr elems _ => elems.toList
  | v => [v]

/-- `PaginateBuilder.filter(field, operator, value)` (builder.ts): the
runtime `switch` on the operator name, dispatching to the staging helpers
or throwing `Unsupported filter operator: <op>` from the `default` arm.
The operator is the runtime string (TypeScript's union type is erased). -/
def builderFilter (params : JSProps) (field operator : String) (value : JSVal) :
    Except String JSProps :=
  if operator = "like" then setOperatorField params "like" field value
  else if operator = "eq" then setOperatorField params "eq" field value
  else if operator = "gte" then setOperatorField params "gte" field value
  else if operator = "gt" then setOperatorField params "gt" field value
  else if operator = "lte" then setOperatorField params "lte" field value
  else if operator = "lt" then setOperatorField params "lt" field value
  else if operator = "in" then appendOperatorField params "in" field (argToList value)
  else if operator = "notin" then appendOperatorField params "notin" field (argToList value)
  else if operator = "isnull" then appendTopList params "isnull" field
  else if operator = "isnotnull" then appendTopList params "isnotnull" field
  else .error ("Unsupported filter operator: " ++ operator)

/-- The recognized filter-operator set: the 15 members of the
`FilterOperator` union type (types.ts). -/
def filterOperatorSet : List String :=
  ["like", "likeor", "likeand", "eq", "eqor", "eqand", "gte", "gt", "lte", "lt",
   "in", "notin", "between", "isnull", "isnotnull"]

/-- Shorthand: a JS array value with no extra properties. -/
def jarr (xs : List JSVal) : JSVal := .arr (JSList.ofList xs) .nil

/-- Shorthand: a plain JS object value. -/
def jobj (l : List (String × JSVal)) : JSVal := .obj (JSProps.ofList l)

/-- Shorthand: a parameter model (top-level object). -/
def jmodel (l : List (String × JSVal)) : JSProps := JSProps.ofList l

/-- Whether a JS value is an integer number (used to state the claims
about integer-typed fields). -/
def isIntegerValue : JSVal → Bool
  | .num (some _) => true
  | _ => false

theorem JSProps.get_set_same : ∀ (ps : JSProps) (k : String) (v : JSVal),
    (ps.set k v).get k = some v
  | .nil, k, v => by simp [JSProps.set, JSProps.get]
  | .cons k2 v2 t, k, v => by
    by_cases h : k2 = k <;>
      simp [JSProps.set, JSProps.get, h, JSProps.get_set_same t k v]

theorem JSProps.get_set_ne : ∀ (ps : JSProps) (k k2 : String) (v : JSVal),
    k ≠ k2 → (ps.set k v).get k2 = ps.get k2
  | .nil, k, k2, v, h => by simp [JSProps.set, JSProps.get, h]
  | .cons k3 v3 t, k, k2, v, h => by
    by_cases h3 : k3 = k
    · subst h3; simp [JSProps.set, JSProps.get, h]
    · simp [JSProps.set, JSProps.get, h3, JSProps.get_set_ne t k k2 v h]

theorem strEta (s : String) : String.mk s.data = s := by
  cases s
  rfl

theorem takeWhile_append_all {p : Char → Bool} (l1 l2 : List Char)
    (h : ∀ c ∈ l1, p c) : (l1 ++ l2).takeWhile p = l1 ++ l2.takeWhile p := by
  induction l1 with
  | nil => simp
  | cons a t ih =>
    have ha : p a := h a (by simp)
    simp [List.takeWhile_cons, ha, ih fun c hc => h c (by simp [hc])]

theorem dropWhile_append_all {p : Char → Bool} (l1 l2 : List Char)
    (h : ∀ c ∈ l1, p c) : (l1 ++ l2).dropWhile p = l2.dropWhile p := by
  induction l1 with
  | nil => simp
  | cons a t ih =>
    have ha : p a := h a (by simp)
    simp [List.dropWhile_cons, ha, ih fun c hc => h c (by simp [hc])]

theorem jsEntries_singleton (k : String) (v : JSVal) :
    jsEntries (JSProps.cons k v JSProps.nil) = [(k, v)] := by
  by_cases h : isIndexString k <;>
    simp [jsEntries, JSProps.toList, sortByIndex, insertByIndex, h]

theorem processAll_append (l1 l2 : List (String × String)) (st : JSProps) :
    processAll st (l1 ++ l2) =
      match processAll st l1 with
      | .ok st2 => processAll st2 l2
      | .error e => .error e := by
  induction l1 generalizing st with
  | nil => simp [processAll]
  | cons p t ih =>
    simp only [List.cons_append, processAll]
    cases processPair st p with
    | ok st1 => exact ih st1
    | error e => rfl

/-- C5: the encoder's key normalization is the single fixed rename
`searchFields` → `search_fields`; every other key is unchanged, and a
non-skipped scalar entry's token is built from the normalized key. -/
theorem C5_key_normalization_single_rename :
    camelToSnakeCase "searchFields" = "search_fields" ∧
    (∀ s : String, s ≠ "searchFields" → camelToSnakeCase s = s) ∧
    (∀ (opts : BuilderOptions) (k v : String),
      shouldSkipValue (.str v) opts = false →
      entryTokens opts (k, .str v) =
        [encodeValue (.str (camelToSnakeCase k)) opts.encodeValues ++ "=" ++
          encodeValue (.str v) opts.encodeValues]) := by
  refine ⟨rfl, ?_, ?_⟩
  · intro s h
    simp [camelToSnakeCase, h]
  · intro opts k v h
    simp [entryTokens, h]

/-- Witness for C5 at concrete inputs. -/
theorem C5_key_normalization_single_rename_witness :
    camelToSnakeCase "pageSize" = "pageSize" ∧
    entryTokens defaultOptions ("search", .str "john") = ["search=john"] := by
  constructor
  · exact C5_key_normalization_single_rename.2.1 "pageSize" (by decide)
  · rw [C5_key_normalization_single_rename.2.2 defaultOptions "search" "john" (by decide)]
    rfl

/-- C6: under `repeat` the encoder emits one `k=v` token per element in
element order; under `comma` it emits a single token whose values are
joined with a literal `","` no matter what `arraySeparator` is configured;
and `encodeToQueryString({sort:["name","age"]},{arrayFormat:"comma"})`
is `"sort=name,age"`. -/
theorem C6_repeat_and_comma_array_formats :
    (∀ (k : String) (vs : List JSVal) (opts : BuilderOptions),
      opts.arrayFormat = ArrayFormat.repeatFmt →
      formatArrayValue k vs opts =
        vs.map fun v =>
          encodeValue (.str k) opts.encodeValues ++ "=" ++ encodeValue v opts.encodeValues) ∧
    (∀ (k : String) (vs : List JSVal) (opts : BuilderOptions),
      opts.arrayFormat = ArrayFormat.comma →
      formatArrayValue k vs opts =
        [encodeValue (.str k) opts.encodeValues ++ "=" ++
          joinSep "," (vs.map fun v => encodeValue v opts.encodeValues)]) ∧
    toQueryString (jmodel [("sort", jarr [.str "name", .str "age"])])
        { defaultOptions with arrayFormat := ArrayFormat.comma } =
      Except.ok "sort=name,age" := by
  refine ⟨?_, ?_, rfl⟩
  · intro k vs opts h
    simp [formatArrayValue, h]
  · intro k vs opts h
    simp [formatArrayValue, h]

/-- Witness for C6 at concrete inputs. -/
theorem C6_repeat_and_comma_array_formats_witness :
    formatArrayValue "sort" [.str "a", .str "b"] defaultOptions = ["sort=a", "sort=b"] ∧
    formatArrayValue "sort" [.str "a", .str "b"]
        { defaultOptions with arrayFormat := ArrayFormat.comma, arraySeparator := "|" } =
      ["sort=a,b"] := by
  constructor
  · rw [C6_repeat_and_comma_array_formats.1 "sort" [.str "a", .str "b"] defaultOptions rfl]
    rfl
  · rw [C6_repeat_and_comma_array_formats.2.1 "sort" [.str "a", .str "b"]
      { defaultOptions with arrayFormat := ArrayFormat.comma, arraySeparator := "|" } rfl]
    rfl

/-- C10: a top-level empty-array value contributes no tokens under every
configuration; an operator-map field holding an empty array contributes no
tokens under `repeat`, `brackets` and `indices`, but one
`composite-key=` token with empty value under `comma` and `separator`. -/
theorem C10_empty_array_dropping :
    (∀ (opts : BuilderOptions) (k : String) (ps : JSProps),
      entryTokens opts (k, .arr JSList.nil ps) = []) ∧
    (∀ (opts : BuilderOptions) (base field : String) (ps : JSProps),
      opts.arrayFormat = ArrayFormat.repeatFmt ∨ opts.arrayFormat = ArrayFormat.brackets ∨
        opts.arrayFormat = ArrayFormat.indices →
      entryTokens opts (base, .obj (JSProps.cons field (.arr JSList.nil ps) JSProps.nil)) = []) ∧
    (∀ (opts : BuilderOptions) (base field : String) (ps : JSProps),
      opts.arrayFormat = ArrayFormat.comma ∨ opts.arrayFormat = ArrayFormat.separator →
      entryTokens opts (base, .obj (JSProps.cons field (.arr JSList.nil ps) JSProps.nil)) =
        [encodeValue (.str (camelToSnakeCase base ++ "[" ++ field ++ "]"))
          opts.encodeValues ++ "="]) := by
  refine ⟨?_, ?_, ?_⟩
  · intro opts k ps
    simp [entryTokens, shouldSkipValue, JSList.length]
  · intro opts base field ps h
    rcases h with h | h | h <;>
      simp [entryTokens, shouldSkipValue, jsEntries_singleton, formatArrayValue, h,
        JSList.toList]
  · intro opts base field ps h
    rcases h with h | h <;>
      simp [entryTokens, shouldSkipValue, jsEntries_singleton, formatArrayValue, h,
        JSList.toList, joinSep]

/-- Witness for C10 at concrete inputs. -/
theorem C10_empty_array_dropping_witness :
    entryTokens defaultOptions ("sort", jarr []) = [] ∧
    entryTokens { defaultOptions with arrayFormat := ArrayFormat.indices }
        ("like", jobj [("field", jarr [])]) = [] ∧
    entryTokens { defaultOptions with arrayFormat := ArrayFormat.comma }
        ("like", jobj [("field", jarr [])]) = ["like%5Bfield%5D="] := by
  refine ⟨C10_empty_array_dropping.1 defaultOptions "sort" JSProps.nil, ?_, ?_⟩
  · exact C10_empty_array_dropping.2.1 _ "like" "field" JSProps.nil (Or.inr (Or.inr rfl))
  · exact (C10_empty_array_dropping.2.2 _ "like" "field" JSProps.nil (Or.inl rfl)).trans rfl

/-- C8: on a model whose `page` and `limit`, when present, are integers
`≥ 1`, `toQueryString` validates successfully and returns the built query
string (a pure value, never an error), for every configuration. -/
theorem C8_encode_never_raises_on_valid_models :
    ∀ (m : JSProps) (opts : BuilderOptions),
      (∀ v, m.getDefined "page" = some v → ∃ i : Int, 1 ≤ i ∧ v = JSVal.num (some i)) →
      (∀ v, m.getDefined "limit" = some v → ∃ i : Int, 1 ≤ i ∧ v = JSVal.num (some i)) →
      toQueryString m opts = Except.ok (buildQueryString m opts) := by
  intro m opts hp hl
  have hlimit : validateLimitCheck m = Except.ok () := by
    unfold validateLimitCheck
    cases hc : m.getDefined "limit" with
    | none => rfl
    | some v =>
      obtain ⟨i, hi, rfl⟩ := hl v hc
      have hni : ¬ i < 1 := by omega
      simp [jsToNumber, hni]
  have hval : validatePaginationParams m = Except.ok () := by
    unfold validatePaginationParams
    cases hc : m.getDefined "page" with
    | none => simp [hlimit]
    | some v =>
      obtain ⟨i, hi, rfl⟩ := hp v hc
      have hni : ¬ i < 1 := by omega
      simp [jsToNumber, hni, hlimit]
  simp [toQueryString, hval]

/-- Witness for C8 at a concrete valid model. -/
theorem C8_encode_never_raises_on_valid_models_witness :
    toQueryString (jmodel [("page", .num (some 2)), ("limit", .num (some 25))])
        defaultOptions =
      Except.ok (buildQueryString (jmodel [("page", .num (some 2)), ("limit", .num (some 25))])
        defaultOptions) := by
  apply C8_encode_never_raises_on_valid_models
  · intro v hv
    refine ⟨2, by omega, ?_⟩
    have : (jmodel [("page", .num (some 2)), ("limit", .num (some 25))]).getDefined "page" =
        some (.num (some 2)) := rfl
    rw [this] at hv
    exact (Option.some.inj hv).symm
  · intro v hv
    refine ⟨25, by omega, ?_⟩
    have : (jmodel [("page", .num (some 2)), ("limit", .num (some 25))]).getDefined "limit" =
        some (.num (some 25)) := rfl
    rw [this] at hv
    exact (Option.some.inj hv).symm

/-- C1: the `repeat`-format round trip fails on the library's own
round-trip test input.  Encoding `{searchFields:["name","email"]}` renames
the key to `search_fields`, but the decoder only special-cases the literal
key `searchFields`, so decoding returns `{search_fields:"email"}` (a plain
scalar under the renamed key, last occurrence winning), not the original
model — contradicting the repo's own round-trip test, which expects
`parsedParams.searchFields` to equal `["name","email"]`. -/
theorem C1_searchFields_roundtrip_failing_input :
    toQueryString (jmodel [("searchFields", jarr [.str "name", .str "email"])])
        defaultOptions =
      Except.ok "search_fields=name&search_fields=email" ∧
    fromQueryString "search_fields=name&search_fields=email" =
      Except.ok (jmodel [("search_fields", .str "email")]) ∧
    JSProps.beq (jmodel [("search_fields", .str "email")])
      (jmodel [("searchFields", jarr [.str "name", .str "email"])]) = false :=
  ⟨rfl, rfl, rfl⟩

theorem matchIndexed_concat (base d : String)
    (hb : base.data ≠ []) (hbnb : ∀ c ∈ base.data, c ≠ '[')
    (hd : d.data ≠ []) (hdd : ∀ c ∈ d.data, c.isDigit) :
    matchIndexed (base ++ "[" ++ d ++ "]") = some (base, d) := by
  have hdata : (base ++ "[" ++ d ++ "]").data = base.data ++ '[' :: (d.data ++ [']']) := by
    simp [String.data_append]
  have hb2 : ∀ c ∈ base.data, (fun c => decide (c ≠ '[')) c = true := by
    intro c hc
    simp [hbnb c hc]
  have hd2 : ∀ c ∈ d.data, (fun c => decide (c ≠ ']')) c = true := by
    intro c hc
    have := hdd c hc
    simp only [decide_eq_true_eq]
    rintro rfl
    simp [Char.isDigit] at this
  have htake : (base.data ++ '[' :: (d.data ++ [']'])).takeWhile (fun c => decide (c ≠ '[')) =
      base.data := by
    rw [takeWhile_append_all _ _ hb2]
    simp
  have hdrop : (base.data ++ '[' :: (d.data ++ [']'])).dropWhile (fun c => decide (c ≠ '[')) =
      '[' :: (d.data ++ [']']) := by
    rw [dropWhile_append_all _ _ hb2]
    simp
  have htake2 : (d.data ++ [']']).takeWhile (fun c => decide (c ≠ ']')) = d.data := by
    rw [takeWhile_append_all _ _ hd2]
    simp
  have hdrop2 : (d.data ++ [']']).dropWhile (fun c => decide (c ≠ ']')) = [']'] := by
    rw [dropWhile_append_all _ _ hd2]
    simp
  unfold matchIndexed
  simp only [hdata, htake, hdrop, htake2, hdrop2]
  rw [if_pos ⟨hb, hd, List.all_eq_true.2 hdd, trivial⟩]

/-- C2: a `base[idx]` pair does not place its value at position `idx`: the
decoder ignores the numeric index entirely and appends the value to
`model[base]` in arrival order (the `arrayAppendEntry` idiom).  The
claim's concrete example decodes as stated only because its values arrive
in increasing index order. -/
theorem C2_indexed_array_appends_in_arrival_order :
    (∀ (st : JSProps) (base d v : String),
      base.data ≠ [] → (∀ c ∈ base.data, c ≠ '[') →
      d.data ≠ [] → (∀ c ∈ d.data, c.isDigit) →
      processPair st (base ++ "[" ++ d ++ "]", v) = arrayAppendEntry st base v) ∧
    fromQueryString "sort[0]=name&sort[1]=-created_at" =
      Except.ok (jmodel [("sort", jarr [.str "name", .str "-created_at"])]) := by
  constructor
  · intro st base d v hb hbnb hd hdd
    have hmatch := matchIndexed_concat base d hb hbnb hd hdd
    have hboth : hasBothBrackets (base ++ "[" ++ d ++ "]") = true := by
      have hdata : (base ++ "[" ++ d ++ "]").data = base.data ++ '[' :: (d.data ++ [']']) := by
        simp [String.data_append]
      simp [hasBothBrackets, hdata]
    simp [processPair, hboth, hmatch]
  · rfl

/-- Witness for C2: the numeric index (here `7`) is ignored; the pair is
processed as a plain append. -/
theorem C2_indexed_array_appends_in_arrival_order_witness :
    processPair (jmodel [("sort", jarr [.str "a"])]) ("sort" ++ "[" ++ "7" ++ "]", "b") =
      arrayAppendEntry (jmodel [("sort", jarr [.str "a"])]) "sort" "b" :=
  C2_indexed_array_appends_in_arrival_order.1 (jmodel [("sort", jarr [.str "a"])])
    "sort" "7" "b" (by decide) (by decide) (by decide) (by decide)

/-- Counterexample for C2 as stated: with indices arriving out of order,
the decoded array follows arrival order `["b","a"]`, not the numeric index
order `["a","b"]` the claim requires. -/
theorem C2_indexed_array_counterexample :
    fromQueryString "sort[1]=b&sort[0]=a" =
      Except.ok (jmodel [("sort", jarr [.str "b", .str "a"])]) ∧
    JSProps.beq (jmodel [("sort", jarr [.str "b", .str "a"])])
      (jmodel [("sort", jarr [.str "a", .str "b"])]) = false :=
  ⟨rfl, rfl⟩

/-- Modelled from the spec: the four recognized bracket shapes of §4.2.1 —
`base[idx]` with a decimal index, `base[field][]`, `base[field]` and
`base[]` — with `base` and `field` read as nonempty bracket-free names
(the code's own regexes require exactly that for the first three shapes).
Used only to state the C9 claim's side condition. -/
def specBracketShapes (key : String) : Bool :=
  let cs := key.data
  let plain := fun c => c ≠ '[' && c ≠ ']'
  let base := cs.takeWhile plain
  match cs.dropWhile plain with
  | '[' :: t =>
    base ≠ [] &&
    (t = [']'] ||
     (let d := t.takeWhile fun c => c ≠ ']'
      d ≠ [] && d.all Char.isDigit && t.dropWhile (fun c => c ≠ ']') = [']']) ||
     (let f := t.takeWhile plain
      f ≠ [] && (t.dropWhile plain = [']'] || t.dropWhile plain = [']', '[', ']'])))
  | _ => false

/-- Counterexample for C9 as stated: the key `x[y][z][]` contains both
brackets and matches none of the claim's four shapes, yet the decoder does
not discard the pair — the trailing-`[]` fallback strips the final `[]`
and appends under the remaining composite key, so the decoded model is not
the model of the remaining (empty) pair list. -/
theorem C9_unrecognized_key_counterexample :
    hasBothBrackets "x[y][z][]" = true ∧
    specBracketShapes "x[y][z][]" = false ∧
    fromQueryString "x[y][z][]=v" = Except.ok (jmodel [("x[y][z]", jarr [.str "v"])]) ∧
    JSProps.beq (jmodel [("x[y][z]", jarr [.str "v"])]) (jmodel []) = false :=
  ⟨rfl, rfl, rfl, rfl⟩

/-- C9 (amended): a pair whose key contains both brackets but matches none
of the decoder's three bracket patterns *and does not end in `[]`* is
silently discarded — the loop state is unchanged, no error is raised, and
the decoded model is the one of the remaining pairs; the claim's example
`a[b][c]` is such a key.  (Keys that fail the patterns but end in `[]` are
instead treated as simple-array appends under the key minus its trailing
`[]`.) -/
theorem C9_unmatched_bracket_keys_discarded :
    (∀ (st : JSProps) (key v : String),
      hasBothBrackets key = true →
      matchIndexed key = none → matchNestedArr key = none → matchNestedObj key = none →
      endsWithBrackets key = false →
      processPair st (key, v) = Except.ok st) ∧
    (∀ (pre post : List (String × String)) (key v : String),
      hasBothBrackets key = true →
      matchIndexed key = none → matchNestedArr key = none → matchNestedObj key = none →
      endsWithBrackets key = false →
      fromPairs (pre ++ (key, v) :: post) = fromPairs (pre ++ post)) ∧
    fromQueryString "a[b][c]=v&page=2" = Except.ok (jmodel [("page", .num (some 2))]) := by
  have hstep : ∀ (st : JSProps) (key v : String),
      hasBothBrackets key = true →
      matchIndexed key = none → matchNestedArr key = none → matchNestedObj key = none →
      endsWithBrackets key = false →
      processPair st (key, v) = Except.ok st := by
    intro st key v h1 h2 h3 h4 h5
    simp [processPair, h1, h2, h3, h4, h5]
    rfl
  refine ⟨hstep, ?_, rfl⟩
  intro pre post key v h1 h2 h3 h4 h5
  unfold fromPairs
  rw [processAll_append, processAll_append]
  cases processAll JSProps.nil pre with
  | error e => rfl
  | ok st =>
    simp only [processAll, hstep st key v h1 h2 h3 h4 h5]

/-- Witness for C9 at a concrete discarded key. -/
theorem C9_unmatched_bracket_keys_discarded_witness :
    processPair (jmodel [("page", .num (some 1))]) ("a[b]c", "v") =
      Except.ok (jmodel [("page", .num (some 1))]) :=
  C9_unmatched_bracket_keys_discarded.1 (jmodel [("page", .num (some 1))]) "a[b]c" "v"
    (by decide) (by decide) (by decide) (by decide) (by decide)

/-- The decoder's push idiom succeeds on a key whose current entry is
absent, falsy, or an array. -/
def pushOK (st : JSProps) (k : String) : Prop :=
  ∀ v, st.get k = some v → jsTruthy v = true → ∃ e p, v = JSVal.arr e p

/-- Invariant of decoder states reached from `{}` through bracket-free
keys: the two repeat-append keys hold arrays (or nothing). -/
def plainInv (st : JSProps) : Prop :=
  pushOK st "sort" ∧ pushOK st "searchFields"

theorem arrayAppendEntry_ok (st : JSProps) (k v : String) (h : pushOK st k) :
    ∃ e p, arrayAppendEntry st k v = Except.ok (st.set k (.arr e p)) := by
  unfold arrayAppendEntry
  cases hc : st.get k with
  | none => exact ⟨_, _, rfl⟩
  | some w =>
    by_cases ht : jsTruthy w
    · obtain ⟨e, p, rfl⟩ := h w hc ht
      refine ⟨e.push (.str v), p, ?_⟩
      simp [ht]
    · refine ⟨.cons (.str v) .nil, .nil, ?_⟩
      simp [ht]

theorem processPair_plain (st : JSProps) (k v : String)
    (hk : hasBothBrackets k = false) (hinv : plainInv st) :
    ∃ st2, processPair st (k, v) = Except.ok st2 ∧ plainInv st2 ∧
      (k ≠ "page" → st2.get "page" = st.get "page") ∧
      (k = "page" → st2.get "page" = some (.num (parseIntJS v))) ∧
      (k ≠ "limit" → st2.get "limit" = st.get "limit") ∧
      (k = "limit" → st2.get "limit" = some (.num (parseIntJS v))) := by
  by_cases hp : k = "page"
  · subst hp
    refine ⟨st.set "page" (.num (parseIntJS v)), ?_, ?_, ?_, ?_, ?_, ?_⟩
    · rfl
    · constructor
      · intro w hw
        rw [JSProps.get_set_ne st "page" "sort" _ (by decide)] at hw
        exact hinv.1 w hw
      · intro w hw
        rw [JSProps.get_set_ne st "page" "searchFields" _ (by decide)] at hw
        exact hinv.2 w hw
    · intro h; exact absurd rfl h
    · intro _; exact JSProps.get_set_same st "page" _
    · intro _; exact JSProps.get_set_ne st "page" "limit" _ (by decide)
    · intro h; exact absurd h (by decide)
  by_cases hl : k = "limit"
  · subst hl
    refine ⟨st.set "limit" (.num (parseIntJS v)), ?_, ?_, ?_, ?_, ?_, ?_⟩
    · rfl
    · constructor
      · intro w hw
        rw [JSProps.get_set_ne st "limit" "sort" _ (by decide)] at hw
        exact hinv.1 w hw
      · intro w hw
        rw [JSProps.get_set_ne st "limit" "searchFields" _ (by decide)] at hw
        exact hinv.2 w hw
    · intro _; exact JSProps.get_set_ne st "limit" "page" _ (by decide)
    · intro h; exact absurd h hp
    · intro h; exact absurd rfl h
    · intro _; exact JSProps.get_set_same st "limit" _
  by_cases hv : k = "vacuum"
  · subst hv
    refine ⟨st.set "vacuum" (.bool (v = "true")), ?_, ?_, ?_, ?_, ?_, ?_⟩
    · rfl
    · constructor
      · intro w hw
        rw [JSProps.get_set_ne st "vacuum" "sort" _ (by decide)] at hw
        exact hinv.1 w hw
      · intro w hw
        rw [JSProps.get_set_ne st "vacuum" "searchFields" _ (by decide)] at hw
        exact hinv.2 w hw
    · intro _; exact JSProps.get_set_ne st "vacuum" "page" _ (by decide)
    · intro h; exact absurd h hp
    · intro _; exact JSProps.get_set_ne st "vacuum" "limit" _ (by decide)
    · intro h; exact absurd h hl
  by_cases hs : k = "sort"
  · subst hs
    obtain ⟨e, p, happ⟩ := arrayAppendEntry_ok st "sort" v hinv.1
    refine ⟨st.set "sort" (.arr e p), ?_, ?_, ?_, ?_, ?_, ?_⟩
    · exact happ
    · constructor
      · intro w hw ht
        rw [JSProps.get_set_same st "sort" _] at hw
        exact ⟨e, p, (Option.some.inj hw).symm⟩
      · intro w hw
        rw [JSProps.get_set_ne st "sort" "searchFields" _ (by decide)] at hw
        exact hinv.2 w hw
    · intro _; exact JSProps.get_set_ne st "sort" "page" _ (by decide)
    · intro h; exact absurd h hp
    · intro _; exact JSProps.get_set_ne st "sort" "limit" _ (by decide)
    · intro h; exact absurd h hl
  by_cases hf : k = "searchFields"
  · subst hf
    obtain ⟨e, p, happ⟩ := arrayAppendEntry_ok st "searchFields" v hinv.2
    refine ⟨st.set "searchFields" (.arr e p), ?_, ?_, ?_, ?_, ?_, ?_⟩
    · exact happ
    · constructor
      · intro w hw
        rw [JSProps.get_set_ne st "searchFields" "sort" _ (by decide)] at hw
        exact hinv.1 w hw
      · intro w hw ht
        rw [JSProps.get_set_same st "searchFields" _] at hw
        exact ⟨e, p, (Option.some.inj hw).symm⟩
    · intro _; exact JSProps.get_set_ne st "searchFields" "page" _ (by decide)
    · intro h; exact absurd h hp
    · intro _; exact JSProps.get_set_ne st "searchFields" "limit" _ (by decide)
    · intro h; exact absurd h hl
  · refine ⟨st.set k (.str v), ?_, ?_, ?_, ?_, ?_, ?_⟩
    · simp [processPair, hk, hp, hl, hv, hs, hf]
      rfl
    · constructor
      · intro w hw
        rw [JSProps.get_set_ne st k "sort" _ hs] at hw
        exact hinv.1 w hw
      · intro w hw
        rw [JSProps.get_set_ne st k "searchFields" _ hf] at hw
        exact hinv.2 w hw
    · intro _; exact JSProps.get_set_ne st k "page" _ hp
    · intro h; exact absurd h hp
    · intro _; exact JSProps.get_set_ne st k "limit" _ hl
    · intro h; exact absurd h hl

theorem processAll_plain (ps : List (String × String)) (st : JSProps)
    (hks : ∀ p ∈ ps, hasBothBrackets p.1 = false) (hinv : plainInv st) :
    ∃ st2, processAll st ps = Except.ok st2 ∧ plainInv st2 ∧
      ((∀ p ∈ ps, p.1 ≠ "page") → st2.get "page" = st.get "page") ∧
      ((∀ p ∈ ps, p.1 ≠ "limit") → st2.get "limit" = st.get "limit") := by
  induction ps generalizing st with
  | nil => exact ⟨st, rfl, hinv, fun _ => rfl, fun _ => rfl⟩
  | cons q qs ih =>
    obtain ⟨st1, hq, hinv1, hpres, _, hpresL, _⟩ :=
      processPair_plain st q.1 q.2 (hks q (by simp)) hinv
    obtain ⟨st2, hqs, hinv2, hpres2, hpres2L⟩ :=
      ih st1 (fun p hp => hks p (by simp [hp])) hinv1
    refine ⟨st2, ?_, hinv2, ?_, ?_⟩
    · simp only [processAll]
      rw [show (q.1, q.2) = q from rfl] at hq
      rw [hq]
      exact hqs
    · intro hnp
      rw [hpres2 fun p hp => hnp p (by simp [hp]), hpres (hnp q (by simp))]
    · intro hnl
      rw [hpres2L fun p hp => hnl p (by simp [hp]), hpresL (hnl q (by simp))]

/-- A model whose `limit` is `NaN` never validates: the check fails with
the `Limit` range error, unless the `page` check (which runs first) fails
before it — either way one of the two positive-integer errors is raised. -/
theorem validate_limit_nan (m : JSProps)
    (h : m.getDefined "limit" = some (.num none)) :
    ∃ e, validatePaginationParams m = Except.error e ∧
      (e = "Page must be a positive integer" ∨ e = "Limit must be a positive integer") := by
  have hlim : validateLimitCheck m = Except.error "Limit must be a positive integer" := by
    unfold validateLimitCheck
    rw [h]
    simp [jsToNumber]
  unfold validatePaginationParams
  cases hc : m.getDefined "page" with
  | none => exact ⟨_, hlim, Or.inr rfl⟩
  | some w =>
    cases hw : jsToNumber w with
    | none =>
      refine ⟨"Page must be a positive integer", ?_, Or.inl rfl⟩
      simp [hw]
    | some j =>
      by_cases hj : j < 1
      · refine ⟨"Page must be a positive integer", ?_, Or.inl rfl⟩
        simp [hw, hj]
      · refine ⟨"Limit must be a positive integer", ?_, Or.inr rfl⟩
        simp [hw, hj, hlim]

/-- C4 (amended): every `page`/`limit` pair is parsed with
`parseInt(value, 10)` and stored (later pairs overwrite earlier ones).
When the *last* `page` pair of a bracket-free-key query has a non-numeric
value (no decimal-digit prefix, so `parseInt` gives `NaN`), the whole
decode fails with the `Page` validation error and no model is returned;
symmetrically, when the *last* `limit` pair is non-numeric the whole
decode fails with a positive-integer validation error (the `Limit` one,
unless the final `page` value independently fails the check that runs
first).  The single-pair decodes `"page=abc"` and `"limit=xyz"` fail
exactly that way. -/
theorem C4_page_limit_parse_and_fail :
    (∀ (st : JSProps) (v : String),
      processPair st ("page", v) = Except.ok (st.set "page" (.num (parseIntJS v)))) ∧
    (∀ (st : JSProps) (v : String),
      processPair st ("limit", v) = Except.ok (st.set "limit" (.num (parseIntJS v)))) ∧
    (∀ (pre post : List (String × String)) (v : String),
      (∀ p ∈ pre, hasBothBrackets p.1 = false) →
      (∀ p ∈ post, hasBothBrackets p.1 = false) →
      (∀ p ∈ post, p.1 ≠ "page") →
      parseIntJS v = none →
      fromPairs (pre ++ ("page", v) :: post) = Except.error "Page must be a positive integer") ∧
    (∀ (pre post : List (String × String)) (v : String),
      (∀ p ∈ pre, hasBothBrackets p.1 = false) →
      (∀ p ∈ post, hasBothBrackets p.1 = false) →
      (∀ p ∈ post, p.1 ≠ "limit") →
      parseIntJS v = none →
      ∃ e, fromPairs (pre ++ ("limit", v) :: post) = Except.error e ∧
        (e = "Page must be a positive integer" ∨ e = "Limit must be a positive integer")) ∧
    fromQueryString "page=abc" = Except.error "Page must be a positive integer" ∧
    fromQueryString "limit=xyz" = Except.error "Limit must be a positive integer" := by
  refine ⟨?_, ?_, ?_, ?_, rfl, rfl⟩
  · intro st v
    rfl
  · intro st v
    rfl
  · intro pre post v hpre hpost hnp hv
    have hnil : plainInv JSProps.nil := by
      constructor <;> intro w hw <;> simp [JSProps.get] at hw
    obtain ⟨st0, h0, hinv0, _⟩ := processAll_plain pre JSProps.nil hpre hnil
    obtain ⟨st1, h1, hinv1, _, hpage, _, _⟩ :=
      processPair_plain st0 "page" v (by decide) hinv0
    obtain ⟨st2, h2, _, hpres, _⟩ := processAll_plain post st1 hpost hinv1
    have hpage2 : st2.get "page" = some (.num none) := by
      rw [hpres hnp, hpage rfl, hv]
    have hall : processAll JSProps.nil (pre ++ ("page", v) :: post) = Except.ok st2 := by
      rw [processAll_append, h0]
      simp only [processAll]
      rw [h1]
      exact h2
    have hdef : st2.getDefined "page" = some (.num none) := by
      simp [JSProps.getDefined, hpage2]
    unfold fromPairs
    rw [hall]
    simp [validatePaginationParams, hdef, jsToNumber]
  · intro pre post v hpre hpost hnl hv
    have hnil : plainInv JSProps.nil := by
      constructor <;> intro w hw <;> simp [JSProps.get] at hw
    obtain ⟨st0, h0, hinv0, _⟩ := processAll_plain pre JSProps.nil hpre hnil
    obtain ⟨st1, h1, hinv1, _, _, _, hlimit⟩ :=
      processPair_plain st0 "limit" v (by decide) hinv0
    obtain ⟨st2, h2, _, _, hpresL⟩ := processAll_plain post st1 hpost hinv1
    have hlimit2 : st2.get "limit" = some (.num none) := by
      rw [hpresL hnl, hlimit rfl, hv]
    have hall : processAll JSProps.nil (pre ++ ("limit", v) :: post) = Except.ok st2 := by
      rw [processAll_append, h0]
      simp only [processAll]
      rw [h1]
      exact h2
    have hdef : st2.getDefined "limit" = some (.num none) := by
      simp [JSProps.getDefined, hlimit2]
    obtain ⟨e, hval, he⟩ := validate_limit_nan st2 hdef
    refine ⟨e, ?_, he⟩
    unfold fromPairs
    rw [hall]
    simp [hval]

/-- Counterexample for C4 as stated: the pair `("page","abc")` has a
non-numeric value, yet the decode of `"page=abc&page=3"` succeeds — the
later pair overwrites the stored `NaN`, so the claim's "the whole decode
fails" is false for that pair. -/
theorem C4_page_limit_parse_counterexample :
    ("page", "abc") ∈ urlsearchParse "page=abc&page=3" ∧
    parseIntJS "abc" = none ∧
    fromQueryString "page=abc&page=3" = Except.ok (jmodel [("page", .num (some 3))]) :=
  ⟨by decide, rfl, rfl⟩

/-- Witness for C4 at concrete failing decodes, one per field. -/
theorem C4_page_limit_parse_and_fail_witness :
    fromPairs [("page", "abc")] = Except.error "Page must be a positive integer" ∧
    (∃ e, fromPairs [("limit", "xyz")] = Except.error e ∧
      (e = "Page must be a positive integer" ∨ e = "Limit must be a positive integer")) :=
  ⟨C4_page_limit_parse_and_fail.2.2.1 [] [] "abc" (by simp) (by simp) (by simp) rfl,
   C4_page_limit_parse_and_fail.2.2.2.1 [] [] "xyz" (by simp) (by simp) (by simp) rfl⟩

/-- Counterexample for C3 as stated: `validate({page:"5"})` and
`validate({page:true})` succeed although neither value is an integer —
`Number()` silently coerces them to accepted integers. -/
theorem C3_validate_coercion_counterexample :
    validatePaginationParams (jmodel [("page", .str "5")]) = Except.ok () ∧
    isIntegerValue (.str "5") = false ∧
    validatePaginationParams (jmodel [("page", .bool true)]) = Except.ok () ∧
    isIntegerValue (.bool true) = false :=
  ⟨rfl, rfl, rfl, rfl⟩

/-- C3 (amended): for number-valued fields the claim holds — a `page`
that is an integer `< 1` or `NaN` makes validation fail with the error
naming `Page`; a `limit` that is an integer `< 1` or `NaN` (with `page`
passing its check, which runs first) fails naming `Limit`; in particular
`validate({page:-1})` and `validate({limit:0})` raise as claimed.
Non-number values, however, are coerced with `Number()` first and
accepted whenever the coercion yields an integer `≥ 1` (see the
counterexample). -/
theorem C3_validate_range_violations :
    (∀ (m : JSProps) (i : Int), m.getDefined "page" = some (.num (some i)) → i < 1 →
      validatePaginationParams m = Except.error "Page must be a positive integer") ∧
    (∀ m : JSProps, m.getDefined "page" = some (.num none) →
      validatePaginationParams m = Except.error "Page must be a positive integer") ∧
    (∀ (m : JSProps) (i : Int),
      (∀ v, m.getDefined "page" = some v → ∃ j : Int, 1 ≤ j ∧ jsToNumber v = some j) →
      m.getDefined "limit" = some (.num (some i)) → i < 1 →
      validatePaginationParams m = Except.error "Limit must be a positive integer") ∧
    (∀ m : JSProps,
      (∀ v, m.getDefined "page" = some v → ∃ j : Int, 1 ≤ j ∧ jsToNumber v = some j) →
      m.getDefined "limit" = some (.num none) →
      validatePaginationParams m = Except.error "Limit must be a positive integer") ∧
    validatePaginationParams (jmodel [("page", .num (some (-1)))]) =
      Except.error "Page must be a positive integer" ∧
    validatePaginationParams (jmodel [("limit", .num (some 0))]) =
      Except.error "Limit must be a positive integer" := by
  refine ⟨?_, ?_, ?_, ?_, rfl, rfl⟩
  · intro m i h hi
    unfold validatePaginationParams
    rw [h]
    simp [jsToNumber, hi]
  · intro m h
    unfold validatePaginationParams
    rw [h]
    simp [jsToNumber]
  · intro m i hp hl hi
    have hlim : validateLimitCheck m = Except.error "Limit must be a positive integer" := by
      unfold validateLimitCheck
      rw [hl]
      simp [jsToNumber, hi]
    unfold validatePaginationParams
    cases hc : m.getDefined "page" with
    | none => exact hlim
    | some v =>
      obtain ⟨j, hj, hnum⟩ := hp v hc
      have hnj : ¬ j < 1 := by omega
      simp [hnum, hnj, hlim]
  · intro m hp hl
    have hlim : validateLimitCheck m = Except.error "Limit must be a positive integer" := by
      unfold validateLimitCheck
      rw [hl]
      simp [jsToNumber]
    unfold validatePaginationParams
    cases hc : m.getDefined "page" with
    | none => exact hlim
    | some v =>
      obtain ⟨j, hj, hnum⟩ := hp v hc
      have hnj : ¬ j < 1 := by omega
      simp [hnum, hnj, hlim]

/-- Witness for C3 at a concrete range-violating model. -/
theorem C3_validate_range_violations_witness :
    validatePaginationParams (jmodel [("page", .num (some 0)), ("limit", .num (some 10))]) =
      Except.error "Page must be a positive integer" :=
  C3_validate_range_violations.1 (jmodel [("page", .num (some 0)), ("limit", .num (some 10))])
    0 rfl (by omega)

/-- The operator names `PaginateBuilder.filter` actually dispatches on;
the five other members of the recognized set (`likeor`, `likeand`,
`eqor`, `eqand`, `between`) fall into the `default` arm and throw. -/
def builderSupportedOps : List String :=
  ["like", "eq", "gte", "gt", "lte", "lt", "in", "notin", "isnull", "isnotnull"]

theorem setOperatorField_fresh (params : JSProps) (opKey field : String) (value : JSVal)
    (habs : params.get opKey = none) :
    setOperatorField params opKey field value =
      Except.ok (params.set opKey (.obj (.cons field value .nil))) := by
  simp [setOperatorField, habs, jsSetProp, JSProps.set]

theorem appendOperatorField_fresh (params : JSProps) (opKey field : String)
    (values : List JSVal) (habs : params.get opKey = none) :
    appendOperatorField params opKey field values =
      Except.ok (params.set opKey
        (.obj (.cons field (.arr (JSList.ofList values) .nil) .nil))) := by
  simp [appendOperatorField, habs, jsGetProp, JSProps.get, jsSetProp, JSProps.set]

theorem appendTopList_fresh (params : JSProps) (key field : String)
    (habs : params.get key = none) :
    appendTopList params key field =
      Except.ok (params.set key (.arr (.cons (.str field) .nil) .nil)) := by
  simp [appendTopList, habs, JSList.ofList]

/-- Counterexample for C7 as stated: `between` is in the recognized
filter-operator set, yet `filter` raises `Unsupported filter operator`
for it. -/
theorem C7_filter_between_counterexample :
    "between" ∈ filterOperatorSet ∧
    builderFilter JSProps.nil "created_at" "between" (jarr [.str "a", .str "b"]) =
      Except.error "Unsupported filter operator: between" :=
  ⟨by decide, rfl⟩

/-- C7 (amended): `filter` raises `UnsupportedOperator` exactly when the
requested operator name is outside the ten-name set it dispatches on
(`like`, `eq`, `gte`, `gt`, `lte`, `lt`, `in`, `notin`, `isnull`,
`isnotnull`); for an operator in that set (called on a builder state where
the operator's slot is not yet set) it succeeds and stages the filter
under the operator's key.  The five recognized operators outside that set
(`likeor`, `likeand`, `eqor`, `eqand`, `between`) are rejected. -/
theorem C7_filter_supported_operators :
    (∀ (params : JSProps) (field op : String) (value : JSVal),
      op ∉ builderSupportedOps →
      builderFilter params field op value =
        Except.error ("Unsupported filter operator: " ++ op)) ∧
    (∀ (params : JSProps) (field op : String) (value : JSVal),
      op ∈ builderSupportedOps → params.get op = none →
      ∃ p2, builderFilter params field op value = Except.ok p2 ∧ p2.get op ≠ none) := by
  constructor
  · intro params field op value h
    simp only [builderSupportedOps, List.mem_cons, List.not_mem_nil, or_false, not_or] at h
    obtain ⟨h1, h2, h3, h4, h5, h6, h7, h8, h9, h10⟩ := h
    simp [builderFilter, h1, h2, h3, h4, h5, h6, h7, h8, h9, h10]
  · intro params field op value hmem habs
    simp only [builderSupportedOps, List.mem_cons, List.not_mem_nil, or_false] at hmem
    rcases hmem with rfl | rfl | rfl | rfl | rfl | rfl | rfl | rfl | rfl | rfl
    · exact ⟨params.set "like" (.obj (.cons field value .nil)),
        setOperatorField_fresh params "like" field value habs,
        by rw [JSProps.get_set_same]; simp⟩
    · exact ⟨params.set "eq" (.obj (.cons field value .nil)),
        setOperatorField_fresh params "eq" field value habs,
        by rw [JSProps.get_set_same]; simp⟩
    · exact ⟨params.set "gte" (.obj (.cons field value .nil)),
        setOperatorField_fresh params "gte" field value habs,
        by rw [JSProps.get_set_same]; simp⟩
    · exact ⟨params.set "gt" (.obj (.cons field value .nil)),
        setOperatorField_fresh params "gt" field value habs,
        by rw [JSProps.get_set_same]; simp⟩
    · exact ⟨params.set "lte" (.obj (.cons field value .nil)),
        setOperatorField_fresh params "lte" field value habs,
        by rw [JSProps.get_set_same]; simp⟩
    · exact ⟨params.set "lt" (.obj (.cons field value .nil)),
        setOperatorField_fresh params "lt" field value habs,
        by rw [JSProps.get_set_same]; simp⟩
    · exact ⟨params.set "in"
          (.obj (.cons field (.arr (JSList.ofList (argToList value)) .nil) .nil)),
        appendOperatorField_fresh params "in" field (argToList value) habs,
        by rw [JSProps.get_set_same]; simp⟩
    · exact ⟨params.set "notin"
          (.obj (.cons field (.arr (JSList.ofList (argToList value)) .nil) .nil)),
        appendOperatorField_fresh params "notin" field (argToList value) habs,
        by rw [JSProps.get_set_same]; simp⟩
    · exact ⟨params.set "isnull" (.arr (.cons (.str field) .nil) .nil),
        appendTopList_fresh params "isnull" field habs,
        by rw [JSProps.get_set_same]; simp⟩
    · exact ⟨params.set "isnotnull" (.arr (.cons (.str field) .nil) .nil),
        appendTopList_fresh params "isnotnull" field habs,
        by rw [JSProps.get_set_same]; simp⟩

/-- Witness for C7: a supported operator stages its filter from a fresh
builder state. -/
theorem C7_filter_supported_operators_witness :
    ∃ p2, builderFilter JSProps.nil "name" "like" (.str "jo") = Except.ok p2 ∧
      p2.get "like" ≠ none :=
  C7_filter_supported_operators.2 JSProps.nil "name" "like" (.str "jo") (by decide) rfl
